import Mathlib

/-!
Verification development for the database code-mutation agent.

The definitions below are a shallow embedding of the repository's plan
execution core: `src/agent/core/file-writer.ts` (class `FileWriter`),
`src/agent/core/agent.ts` (class `DatabaseAgent`), the CLI executor
`src/cli/utils/executor.ts`, the migrate command
`src/cli/commands/migrate.ts`, and the agent-based `runCommand` CLI entry
point.  The filesystem is an association list from paths to contents, the
wall clock is a natural-number counter (one tick per observable effect,
standing in for `Date.now()` millisecond timestamps), and every observable
effect is recorded in an event trace so that ordering properties
(backup-before-write, migration-trigger invocation counts) can be stated.

External collaborators (the project analyzer, the AI plan source, the
drizzle-kit migration tool, and the possibility of a failing file copy)
are modelled by an `Env` record of oracles.  The string-template renderers
`generateComponentUpdate` and `generateNewComponent` (and `generateApiRoute`)
are deterministic text renderers whose output text no property below
depends on; they are passed in as a `Gen` record of pure functions, so all
theorems hold for every renderer.  The schema-file generators are embedded
literally, since the properties about column injection inspect their output.
-/

namespace DBAgent

/-- Splits a list of characters at every occurrence of the separator,
mirroring the behaviour of JavaScript `String.prototype.split` for a
single-character separator (used for `path.basename` and for splitting
generated files into lines). -/
def splitChar (c : Char) : List Char → List (List Char)
  | [] => [[]]
  | x :: xs =>
    let r := splitChar c xs
    if x = c then [] :: r
    else
      match r with
      | [] => [[x]]
      | y :: ys => (x :: y) :: ys

/-- Splits a string into the segments between occurrences of a character. -/
def splitStr (c : Char) (s : String) : List String :=
  (splitChar c s.data).map String.mk

/-- JavaScript `String.prototype.includes`: substring containment. -/
def strIncludes (hay pat : String) : Bool :=
  decide (pat.data <:+: hay.data)

/-- Mirrors `path.basename`: the last `/`-separated component of a path. -/
def baseName (p : String) : String :=
  ((splitChar '/' p.data).getLastD p.data) |> String.mk

/-- Mirrors `path.basename(componentPath, ".tsx")`: the base name with a
trailing `.tsx` extension removed. -/
def baseNameNoTsx (p : String) : String :=
  let b := baseName p
  match b.data.reverse with
  | 'x' :: 's' :: 't' :: '.' :: rest => String.mk rest.reverse
  | _ => b

/-- Mirrors `FileWriter.capitalize`: first character upper-cased, rest kept. -/
def capitalize (s : String) : String :=
  match s.data with
  | [] => ""
  | c :: cs => String.mk (c.toUpper :: cs)

/-- Mirrors `FileWriter.getComponentNameFromPath`: base name without the
`.tsx` extension, split on `-`, each segment capitalized, joined. -/
def getComponentNameFromPath (componentPath : String) : String :=
  String.join ((splitStr '-' (baseNameNoTsx componentPath)).map capitalize)

/-- ASCII lower-casing of a string, mirroring `String.prototype.toLowerCase`
as applied to the type names that occur in plans. -/
def toLowerStr (s : String) : String :=
  String.mk (s.data.map Char.toLower)

/-- One observable effect of a run.  `backup src dst t` records that the
content of `src` was copied to the backup location `dst` at time `t`;
`write p t` records that `p` was (over)written at time `t`; `fileDelete`
records an unlink; `migInvoke t` records one invocation of the Migration
Trigger (the external drizzle-kit generate+push procedure) at time `t`. -/
inductive Event where
  | backup (src : String) (dst : String) (time : Nat)
  | write (p : String) (time : Nat)
  | fileDelete (p : String) (time : Nat)
  | migInvoke (time : Nat)
deriving DecidableEq, Repr

/-- The mutable world of one run: the project filesystem (association list
path to content), the clock, and the accumulated event trace. -/
structure Sys where
  fs : List (String × String)
  clock : Nat
  trace : List Event
deriving DecidableEq, Repr

/-- Reads a file: the content associated with the first matching path. -/
def fsGet (fs : List (String × String)) (p : String) : Option String :=
  (fs.find? (fun e => e.1 = p)).map (fun e => e.2)

/-- Writes a file: replaces the binding for `p` if present, else appends. -/
def fsSet (fs : List (String × String)) (p c : String) : List (String × String) :=
  match fs with
  | [] => [(p, c)]
  | (q, d) :: rest => if q = p then (p, c) :: rest else (q, d) :: fsSet rest p c

/-- Removes a file from the filesystem. -/
def fsRemove (fs : List (String × String)) (p : String) : List (String × String) :=
  fs.filter (fun e => ¬ e.1 = p)

/-- Oracles for the external collaborators of one run: whether the project
analysis probe fails, the plan returned by the AI plan source (or its
failure message), whether the external drizzle-kit migration procedure
succeeds, and which file copies fail (modelling I/O faults inside
`fs.copyFile`). -/
structure Env (α : Type) where
  analysisFails : Bool
  planResult : Except String (List α)
  migOk : Bool
  copyFail : String → Bool

/-- One column of a parsed `SchemaDefinition` (`file-writer.ts`): the column
name, the already-rendered drizzle column type expression, and the constraint
suffixes. -/
structure SchemaColumn where
  name : String
  ctype : String
  constraints : List String
deriving DecidableEq, Repr

/-- A declared relationship of a `SchemaDefinition` (`file-writer.ts`). -/
structure Relationship where
  rtype : String
  table : String
  column : String
deriving DecidableEq, Repr

/-- Mirrors the `SchemaDefinition` interface of `file-writer.ts`.  The
`relationships` field is optional in the source (`relationships?`); note that
`DatabaseAgent.parseSchemaFromStep` always supplies it (possibly empty), and
an empty array is truthy in JavaScript, so the relationships comment block is
emitted whenever the field is present. -/
structure SchemaDefinition where
  tableName : String
  columns : List SchemaColumn
  relationships : Option (List Relationship)
deriving DecidableEq, Repr

/-- Mirrors the `ApiRouteDefinition` interface of `file-writer.ts`. -/
structure ApiRouteDefinition where
  endpoint : String
  methods : List String
  tableName : String
  operations : List String
deriving DecidableEq, Repr

/-- A raw column as it appears in a plan step's `details.columns` before
`DatabaseAgent.parseSchemaFromStep` maps it: a name, a type keyword, an
optional length, and optional constraints. -/
structure RawColumn where
  name : String
  type : String
  length : Option Nat
  constraints : List String
deriving DecidableEq, Repr

/-- Mirrors the `ExecutionStep` union of `agent.ts` as the tagged variant the
spec prescribes: one constructor per step kind, carrying the `details`
payload that `DatabaseAgent.executeStep` destructures for that kind. -/
inductive Step where
  | create_schema (tableName : String) (columns : List RawColumn)
      (relationships : Option (List Relationship))
  | create_api (endpoint : String) (tableName : String)
      (methods : Option (List String)) (operations : Option (List String))
  | update_component (componentPaths : List String) (endpoint : String)
      (tableName : String)
  | create_component (componentPaths : List String) (endpoint : String)
      (tableName : String)
  | run_migration
  | analyze_project
deriving DecidableEq, Repr

/-- The `step.type` discriminator string of a step, as used in the agent's
error messages (`Step ${step.type} failed: ...`). -/
def stepTypeName : Step → String
  | .create_schema _ _ _ => "create_schema"
  | .create_api _ _ _ _ => "create_api"
  | .update_component _ _ _ => "update_component"
  | .create_component _ _ _ => "create_component"
  | .run_migration => "run_migration"
  | .analyze_project => "analyze_project"

/-- The opaque string-template renderers of the core, passed in as pure
functions (spec section 9 prescribes exactly this treatment): the component
update transformer `FileWriter.generateComponentUpdate existingCode endpoint
tableName`, the new component renderer `FileWriter.generateNewComponent
componentName endpoint tableName`, and the API route renderer
`FileWriter.generateApiRoute`.  No property in this development depends on
the text they return, so every theorem is proved for all renderers. -/
structure Gen where
  componentUpdate : String → String → String → String
  newComponent : String → String → String → String
  apiRoute : ApiRouteDefinition → String

/-- Mirrors the `FileOperation` interface of `file-writer.ts`. -/
inductive OpType where
  | create
  | update
  | delete
deriving DecidableEq, Repr

/-- Mirrors the `FileOperation` interface of `file-writer.ts`: operation
type, project-relative path, optional content, and the opt-in backup flag. -/
structure FileOperation where
  type : OpType
  filePath : String
  content : Option String
  backup : Bool
deriving Repr

/-- Mirrors `DatabaseAgent.mapColumnType`: the lookup table from a plan's
column type keyword to a drizzle column expression.  The quirks of the
source are preserved: the rendered `varchar` column identifier is the
lower-cased TYPE keyword (not the column name), and `length || 255` treats a
zero length as absent (JavaScript falsiness). -/
def mapColumnType (type : String) (length : Option Nat) : String :=
  let t := toLowerStr type
  let len := match length with
    | some (n + 1) => n + 1
    | _ => 255
  if t = "string" then
    "varchar(\"" ++ t ++ "\", \x7b length: " ++ Nat.repr len ++ " \x7d)"
  else if t = "text" then "text(\"text\")"
  else if t = "number" then "integer(\"number\")"
  else if t = "integer" then "integer(\"integer\")"
  else if t = "boolean" then "boolean(\"boolean\").default(false)"
  else if t = "date" then "timestamp(\"date\")"
  else if t = "datetime" then "timestamp(\"datetime\")"
  else "varchar(\"" ++ t ++ "\", \x7b length: 255 \x7d)"

/-- Mirrors `DatabaseAgent.parseSchemaFromStep`: maps each raw column through
`mapColumnType` and defaults missing relationship lists to the empty list. -/
def parseSchemaFromStep (tableName : String) (columns : List RawColumn)
    (relationships : Option (List Relationship)) : SchemaDefinition :=
  { tableName := tableName
    columns := columns.map (fun col =>
      { name := col.name
        ctype := mapColumnType col.type col.length
        constraints := col.constraints })
    relationships := some (relationships.getD []) }

/-- Mirrors `DatabaseAgent.parseApiFromStep`: missing `methods` default to
`GET`/`POST`, missing `operations` default to the empty list. -/
def parseApiFromStep (endpoint : String) (tableName : String)
    (methods : Option (List String)) (operations : Option (List String)) :
    ApiRouteDefinition :=
  { endpoint := endpoint
    methods := methods.getD ["GET", "POST"]
    tableName := tableName
    operations := operations.getD [] }

/-- The backup location `FileWriter.backupFile` chooses: it combines the
current millisecond timestamp (the clock) with the original base name inside
the `.agent-backups` directory. -/
def backupPathFor (clock : Nat) (filePath : String) : String :=
  ".agent-backups/" ++ Nat.repr clock ++ "-" ++ baseName filePath

/-- Mirrors `FileWriter.backupFile`.  The whole body is wrapped in a `try`
whose `catch` returns the empty string, so the function is total: a missing
source file or a failing copy yields `""` and leaves the world unchanged. -/
def backupFile (env : Env Step) (s : Sys) (filePath : String) : String × Sys :=
  let backupPath := backupPathFor s.clock filePath
  match fsGet s.fs filePath with
  | none => ("", s)
  | some c =>
    if env.copyFail filePath then ("", s)
    else
      (backupPath,
        { fs := fsSet s.fs backupPath c
          clock := s.clock + 1
          trace := s.trace ++ [Event.backup filePath backupPath s.clock] })

/-- Mirrors `FileWriter.writeFile`: optionally backs the target up first,
then creates/updates (rejecting missing or empty content — `!operation.content`
is JavaScript falsiness, so the empty string is rejected too) or deletes the
target (`fs.unlink` throws when the file is absent).  Returns the new world
and the thrown error message, if any; effects performed before a throw (the
backup) persist. -/
def writeFile (env : Env Step) (s : Sys) (op : FileOperation) : Sys × Option String :=
  let s1 := if op.backup then (backupFile env s op.filePath).2 else s
  match op.type with
  | .create | .update =>
    match op.content with
    | none => (s1, some "Content required for create/update")
    | some c =>
      if c = "" then (s1, some "Content required for create/update")
      else
        ({ fs := fsSet s1.fs op.filePath c
           clock := s1.clock + 1
           trace := s1.trace ++ [Event.write op.filePath s1.clock] }, none)
  | .delete =>
    match fsGet s1.fs op.filePath with
    | none => (s1, some "ENOENT: no such file or directory, unlink")
    | some _ =>
      ({ fs := fsRemove s1.fs op.filePath
         clock := s1.clock + 1
         trace := s1.trace ++ [Event.fileDelete op.filePath s1.clock] }, none)

/-- Mirrors `FileWriter.generateSchemaFile`: the fixed import line, the
`pgTable` header, an UNCONDITIONAL serial `id` primary key line, one line
per supplied column (name, rendered type, concatenated constraints), then
UNCONDITIONAL `createdAt`/`updatedAt` timestamp lines, the closing brace,
and a relationships comment block whenever the field is present. -/
def generateSchemaFile (schema : SchemaDefinition) : String :=
  "import \x7b " ++
    String.intercalate ", "
      ["pgTable", "serial", "varchar", "text", "integer", "timestamp", "boolean"] ++
    " \x7d from \"drizzle-orm/pg-core\";\n\n" ++
  "export const " ++ schema.tableName ++ " = pgTable(\"" ++ schema.tableName ++ "\", \x7b\n" ++
  "  id: serial(\"id\").primaryKey(),\n" ++
  String.join (schema.columns.map (fun col =>
    "  " ++ col.name ++ ": " ++ col.ctype ++ String.join col.constraints ++ ",\n")) ++
  "  createdAt: timestamp(\"created_at\").defaultNow().notNull(),\n" ++
  "  updatedAt: timestamp(\"updated_at\").defaultNow().notNull(),\n" ++
  "\x7d);\n" ++
  (match schema.relationships with
   | none => ""
   | some rels =>
     "\n// Relationships\n" ++
     String.join (rels.map (fun rel =>
       "// " ++ rel.rtype ++ ": " ++ rel.table ++ "." ++ rel.column ++ "\n")))

/-- The canonical re-export line `updateMainSchema` looks for in the central
schema index file. -/
def exportLineFor (tableName : String) : String :=
  "export * from \"./schemas/" ++ tableName ++ "\";"

/-- Mirrors `FileWriter.updateMainSchema` (the Aggregate Index Merger):
reads `src/database/schema.ts` (absence, or any error, is swallowed by the
`catch` and treated as a no-op), and appends the canonical export line for
the table unless the current content already contains it.  The write backs
the index up first (`backup: true`); a write failure is swallowed by the
same `catch`, but its side effects persist. -/
def updateMainSchema (env : Env Step) (s : Sys) (tableName : String) : Sys :=
  let schemaPath := "src/database/schema.ts"
  match fsGet s.fs schemaPath with
  | none => s
  | some existingContent =>
    let exportLine := exportLineFor tableName
    if strIncludes existingContent exportLine then s
    else
      (writeFile env s
        { type := .update
          filePath := schemaPath
          content := some (existingContent ++ "\n" ++ exportLine)
          backup := true }).1

/-- The schema file path `FileWriter.createSchema` writes for a table. -/
def schemaFilePath (tableName : String) : String :=
  "src/database/schemas/" ++ tableName ++ ".ts"

/-- The route file path `FileWriter.createApiRoute` writes for an endpoint. -/
def apiFilePath (endpoint : String) : String :=
  "src/app/api/" ++ endpoint ++ "/route.ts"

/-- Mirrors `FileWriter.createSchema`: renders the schema file, writes it
(create, backup on) to `src/database/schemas/<tableName>.ts`, and — only if
that write did not throw — merges the table into the central index. -/
def createSchema (env : Env Step) (s : Sys) (schema : SchemaDefinition) :
    Sys × Option String :=
  let schemaContent := generateSchemaFile schema
  let (s1, e1) := writeFile env s
    { type := .create
      filePath := schemaFilePath schema.tableName
      content := some schemaContent
      backup := true }
  match e1 with
  | some err => (s1, some err)
  | none => (updateMainSchema env s1 schema.tableName, none)

/-- Mirrors `FileWriter.createApiRoute`: renders the route file and writes it
(create, backup on) to `src/app/api/<endpoint>/route.ts`. -/
def createApiRoute (env : Env Step) (gen : Gen) (s : Sys)
    (api : ApiRouteDefinition) : Sys × Option String :=
  writeFile env s
    { type := .create
      filePath := apiFilePath api.endpoint
      content := some (gen.apiRoute api)
      backup := true }

/-- Mirrors `FileWriter.updateComponent`: reads the component, transforms it,
and writes it back (update, backup on).  The whole body sits in a `try`
whose `catch` only logs a warning, so a missing component — or a failing
write — never raises; effects performed before a failure persist. -/
def updateComponent (env : Env Step) (gen : Gen) (s : Sys)
    (componentPath endpoint tableName : String) : Sys :=
  match fsGet s.fs componentPath with
  | none => s
  | some existingCode =>
    let updatedCode := gen.componentUpdate existingCode endpoint tableName
    (writeFile env s
      { type := .update
        filePath := componentPath
        content := some updatedCode
        backup := true }).1

/-- Mirrors `FileWriter.createComponent`: derives the component name from the
path, renders the module, and writes it with `backup: false` — with no check
whatsoever that the target does not already exist. -/
def createComponent (env : Env Step) (gen : Gen) (s : Sys)
    (componentPath endpoint tableName : String) : Sys × Option String :=
  let componentName := getComponentNameFromPath componentPath
  writeFile env s
    { type := .create
      filePath := componentPath
      content := some (gen.newComponent componentName endpoint tableName)
      backup := false }

/-- Mirrors `FileWriter.runMigration`: one invocation of the external
drizzle-kit generate+push procedure, recorded in the trace; when the oracle
says the external tool fails, the function throws `Migration failed: ...`. -/
def runMigration (env : Env Step) (s : Sys) : Sys × Option String :=
  let s1 := { s with
    clock := s.clock + 1
    trace := s.trace ++ [Event.migInvoke s.clock] }
  if env.migOk then (s1, none)
  else (s1, some "Migration failed: Error: drizzle-kit failed")

/-- Mirrors `migrateCommand` of `src/cli/commands/migrate.ts` called with
`{generate: true, push: true}`: one invocation of the drizzle-kit
generate+push procedure.  Its `catch` handler calls `process.exit(1)`, so on
failure the whole process terminates instead of throwing: the returned flag
is `false` exactly when the process exited. -/
def migrateCommand (env : Env Step) (s : Sys) : Sys × Bool :=
  let s1 := { s with
    clock := s.clock + 1
    trace := s.trace ++ [Event.migInvoke s.clock] }
  (s1, env.migOk)

/-- The per-path loop of the `create_component` case of
`DatabaseAgent.executeStep`: each path is created in order; the first throw
aborts the loop (the paths pushed so far are discarded by the caller's
`catch`), while the world changes made before the throw persist. -/
def createComponentLoop (env : Env Step) (gen : Gen) (s : Sys)
    (endpoint tableName : String) : List String → Sys × Except String (List String)
  | [] => (s, .ok [])
  | p :: rest =>
    let (s1, e) := createComponent env gen s p endpoint tableName
    match e with
    | some err => (s1, .error err)
    | none =>
      match createComponentLoop env gen s1 endpoint tableName rest with
      | (s2, .ok files) => (s2, .ok (p :: files))
      | (s2, .error err) => (s2, .error err)

/-- The per-path loop of the `update_component` case of
`DatabaseAgent.executeStep`: `FileWriter.updateComponent` never throws, and
the path is pushed onto the touched-files list unconditionally — whether or
not the component existed. -/
def updateComponentLoop (env : Env Step) (gen : Gen) (s : Sys)
    (endpoint tableName : String) : List String → Sys × List String
  | [] => (s, [])
  | p :: rest =>
    let s1 := updateComponent env gen s p endpoint tableName
    let (s2, files) := updateComponentLoop env gen s1 endpoint tableName rest
    (s2, p :: files)

/-- Mirrors `DatabaseAgent.executeStep`: dispatches one step and returns the
list of files it pushed, or the thrown error message.  The switch has no
`analyze_project` case, so that kind falls through to the `default` branch
and throws `Unknown step type`. -/
def executeStep (env : Env Step) (gen : Gen) (s : Sys) :
    Step → Sys × Except String (List String)
  | .create_schema tableName columns relationships =>
    let schema := parseSchemaFromStep tableName columns relationships
    let (s1, e) := createSchema env s schema
    match e with
    | some err => (s1, .error err)
    | none => (s1, .ok [schemaFilePath schema.tableName])
  | .create_api endpoint tableName methods operations =>
    let api := parseApiFromStep endpoint tableName methods operations
    let (s1, e) := createApiRoute env gen s api
    match e with
    | some err => (s1, .error err)
    | none => (s1, .ok [apiFilePath api.endpoint])
  | .update_component componentPaths endpoint tableName =>
    let (s1, files) := updateComponentLoop env gen s endpoint tableName componentPaths
    (s1, .ok files)
  | .create_component componentPaths endpoint tableName =>
    createComponentLoop env gen s endpoint tableName componentPaths
  | .run_migration =>
    let (s1, e) := runMigration env s
    match e with
    | some err => (s1, .error err)
    | none => (s1, .ok [])
  | .analyze_project => (s, .error "Unknown step type: analyze_project")

/-- Whether a step's kind makes the orchestrator set its sticky
`needsMigration` flag (checked only after the step succeeded). -/
def isMigKind : Step → Bool
  | .create_schema _ _ _ => true
  | .run_migration => true
  | _ => false

/-- The step loop of `DatabaseAgent.execute` (step 3 of the orchestrator):
runs the steps in order; a successful step appends its files to the
touched-files list and, for `create_schema`/`run_migration` kinds, sets the
sticky `needsMigration` flag; a thrown step error is formatted as
`Step <kind> failed: <message>` and appended to the error list, after which
execution CONTINUES with the next step.  Returns the final world, the
touched files, the errors, and the `needsMigration` flag. -/
def runSteps (env : Env Step) (gen : Gen) (s : Sys) :
    List Step → Sys × List String × List String × Bool
  | [] => (s, [], [], false)
  | step :: rest =>
    match executeStep env gen s step with
    | (s1, .ok files) =>
      let (s2, moreFiles, errors, needs) := runSteps env gen s1 rest
      (s2, files ++ moreFiles, errors, isMigKind step || needs)
    | (s1, .error msg) =>
      let (s2, moreFiles, errors, needs) := runSteps env gen s1 rest
      (s2, moreFiles,
        ("Step " ++ stepTypeName step ++ " failed: " ++ msg) :: errors, needs)

/-- Mirrors the `AgentRequest` interface of `agent.ts`. -/
structure AgentRequest where
  query : String
  skipAnalysis : Bool
  skipMigration : Bool
deriving DecidableEq, Repr

/-- Mirrors the `AgentResult` interface of `agent.ts` (the project context
field, which no property below inspects, is omitted). -/
structure AgentResult where
  success : Bool
  steps : List Step
  files : List String
  errors : List String
  migrationCompleted : Bool
deriving DecidableEq, Repr

/-- Mirrors `DatabaseAgent.execute`, the Plan Orchestrator.  A failing
project analysis (when not skipped) or a failing plan generation is caught
by the outer `catch`, which returns a result with `success = false`, the
single error, and no steps or files.  Otherwise the steps run to completion
with per-step error isolation; afterwards, if some successful step had kind
`create_schema` or `run_migration` and the request does not skip migration,
`migrateCommand {generate: true, push: true}` is invoked — on external
failure that command calls `process.exit(1)`, so the run returns no result
at all (`none`).  Finally `success` is set to whether the error list is
empty. -/
def execute (env : Env Step) (gen : Gen) (s : Sys) (req : AgentRequest) :
    Sys × Option AgentResult :=
  if !req.skipAnalysis && env.analysisFails then
    (s, some { success := false, steps := [], files := [],
               errors := ["Project analysis failed: analysis error"],
               migrationCompleted := false })
  else
    match env.planResult with
    | .error e =>
      (s, some { success := false, steps := [], files := [],
                 errors := [e], migrationCompleted := false })
    | .ok steps =>
      let (s1, files, errors, needsMigration) := runSteps env gen s steps
      if needsMigration && !req.skipMigration then
        let (s2, survived) := migrateCommand env s1
        if survived then
          (s2, some { success := errors.isEmpty, steps := steps, files := files,
                      errors := errors, migrationCompleted := true })
        else (s2, none)
      else
        (s1, some { success := errors.isEmpty, steps := steps, files := files,
                    errors := errors, migrationCompleted := false })

/-- Mirrors the `RunCommandOptions` interface of `cli/types.ts`. -/
structure RunCommandOptions where
  dryRun : Bool
deriving DecidableEq, Repr

/-- Mirrors the agent-based `runCommand` CLI entry point: it builds an
`AgentRequest` with `skipAnalysis: false` ("always analyze for better
context") and `skipMigration: options.dryRun` ("skip migration in dry run
mode"), and then UNCONDITIONALLY calls `agent.execute` — in dry-run mode the
steps (and their filesystem writes) still execute; only the end-of-run
migration is skipped and the display changes. -/
def runCommand (env : Env Step) (gen : Gen) (s : Sys) (query : String)
    (options : RunCommandOptions) : Sys × Option AgentResult :=
  execute env gen s
    { query := query, skipAnalysis := false, skipMigration := options.dryRun }

/-- A field of a CLI-executor plan step (`executor.ts`), with the flags the
generator inspects. -/
structure Field where
  name : String
  type : String
  primary : Bool
  required : Bool
  unique : Bool
deriving DecidableEq, Repr

/-- Mirrors `mapFieldType` of `executor.ts`. -/
def mapFieldType (type : String) : String :=
  let t := toLowerStr type
  if t = "string" then "varchar"
  else if t = "text" then "text"
  else if t = "number" then "integer"
  else if t = "boolean" then "boolean"
  else if t = "date" then "timestamp"
  else if t = "serial" then "serial"
  else "varchar"

/-- Mirrors `toSnakeCase` of `executor.ts`: every upper-case letter is
replaced by an underscore and its lower-case form, then a single leading
underscore is stripped. -/
def toSnakeCase (s : String) : String :=
  let t := String.mk (s.data.flatMap (fun ch =>
    if ch.isUpper then ['_', ch.toLower] else [ch]))
  match t.data with
  | '_' :: rest => String.mk rest
  | _ => t

/-- Mirrors `toPascalCase` of `executor.ts`. -/
def toPascalCase (s : String) : String :=
  match s.data with
  | [] => ""
  | c :: cs => String.mk (c.toUpper :: cs)

/-- The rendered table line for one supplied field in `generateSchemaCode`
of `executor.ts`: name, mapped drizzle type applied to the name, and the
constraint suffixes in the source's order (primary key, then not-null when
required and not primary, then unique). -/
def fieldLine (f : Field) : String :=
  let constraints :=
    (if f.primary then ".primaryKey()" else "") ++
    (if f.required && !f.primary then ".notNull()" else "") ++
    (if f.unique then ".unique()" else "")
  "  " ++ f.name ++ ": " ++ mapFieldType f.type ++ "(\x27" ++ f.name ++ "\x27)" ++
    constraints ++ ","

/-- The table-field lines pushed by `generateSchemaCode` of `executor.ts`:
an `id` serial primary key IF no supplied field is named `id`, then one line
per supplied field, then `createdAt`/`updatedAt` timestamp lines IF no
supplied field carries those names. -/
def schemaTableFields (fields : List Field) : List String :=
  (if fields.any (fun f => f.name == "id") then []
   else ["  id: serial(\x27id\x27).primaryKey(),"]) ++
  fields.map fieldLine ++
  (if fields.any (fun f => f.name == "createdAt") then []
   else ["  createdAt: timestamp(\x27created_at\x27).defaultNow().notNull(),"]) ++
  (if fields.any (fun f => f.name == "updatedAt") then []
   else ["  updatedAt: timestamp(\x27updated_at\x27).defaultNow().notNull(),"])

/-- Mirrors `generateSchemaCode` of `executor.ts`: imports, the `pgTable`
declaration over the snake-cased table name with the field lines of
`schemaTableFields`, and the inferred model type aliases. -/
def generateSchemaCode (tableName : String) (fields : List Field) : String :=
  String.intercalate "\n"
    ["import \x7b pgTable, serial, varchar, text, timestamp, boolean, integer \x7d from \x27drizzle-orm/pg-core\x27;",
     "import \x7b InferSelectModel, InferInsertModel \x7d from \x27drizzle-orm\x27;"] ++
  "\n\nexport const " ++ tableName ++ " = pgTable(\x27" ++ toSnakeCase tableName ++
  "\x27, \x7b\n" ++
  String.intercalate "\n" (schemaTableFields fields) ++
  "\n\x7d);\n\n" ++
  "export type " ++ toPascalCase tableName ++ " = InferSelectModel<typeof " ++
  tableName ++ ">;\n" ++
  "export type New" ++ toPascalCase tableName ++ " = InferInsertModel<typeof " ++
  tableName ++ ">;"

/-- Whether an event is an invocation of the Migration Trigger. -/
def isMigInvoke : Event → Bool
  | .migInvoke _ => true
  | _ => false

/-- How many times the Migration Trigger (drizzle-kit generate+push) has
been invoked in a world's trace. -/
def migCount (s : Sys) : Nat :=
  s.trace.countP isMigInvoke

/-- Whether a step is a `run_migration` step. -/
def isRunMigrationStep : Step → Bool
  | .run_migration => true
  | _ => false

/-- The number of `run_migration` steps in a plan. -/
def countRunMig (steps : List Step) : Nat :=
  steps.countP isRunMigrationStep

/-- Whether the orchestrator's sticky `needsMigration` flag ends up set for
a plan: some step both has a migration-relevant kind and succeeds — every
`create_schema` step succeeds, while a `run_migration` step succeeds exactly
when the external migration tool does. -/
def plansMigration (env : Env Step) (steps : List Step) : Bool :=
  steps.any (fun step =>
    match step with
    | .create_schema _ _ _ => true
    | .run_migration => env.migOk
    | _ => false)

/-- The column name declared by a rendered table-field line: the characters
after the two-space indent and before the first colon. -/
def lineName (l : String) : String :=
  String.mk ((l.data.drop 2).takeWhile (fun c => c ≠ ':'))

/-- How many of the given rendered lines declare the column `c`. -/
def countColumnDefs (lines : List String) (c : String) : Nat :=
  lines.countP (fun l => lineName l == c)

/-! Helper lemmas about strings, the filesystem model, and traces. -/

theorem str_ne_empty_iff (s : String) : s ≠ "" ↔ s.data ≠ [] := by
  constructor
  · intro h hd
    exact h (String.ext (by simp [hd]))
  · intro h hc
    exact h (by rw [hc])

theorem str_append_ne_empty_left (x y : String) (h : x ≠ "") : x ++ y ≠ "" := by
  rw [str_ne_empty_iff] at h ⊢
  rw [String.data_append]
  intro hc
  exact h (List.append_eq_nil.mp hc).1

theorem str_append_ne_empty_right (x y : String) (h : y ≠ "") : x ++ y ≠ "" := by
  rw [str_ne_empty_iff] at h ⊢
  rw [String.data_append]
  intro hc
  exact h (List.append_eq_nil.mp hc).2

theorem generateSchemaFile_ne_empty (schema : SchemaDefinition) :
    generateSchemaFile schema ≠ "" := by
  unfold generateSchemaFile
  repeat' apply str_append_ne_empty_left
  decide

theorem exportLineFor_ne_empty (tableName : String) :
    exportLineFor tableName ≠ "" := by
  unfold exportLineFor
  repeat' apply str_append_ne_empty_left
  decide

theorem fsGet_fsSet_self (fs : List (String × String)) (p c : String) :
    fsGet (fsSet fs p c) p = some c := by
  induction fs with
  | nil => simp [fsSet, fsGet, List.find?]
  | cons e rest ih =>
    obtain ⟨q, d⟩ := e
    by_cases h : q = p
    · simp [fsSet, h, fsGet, List.find?]
    · simp only [fsSet, if_neg h]
      simpa [fsGet, List.find?, h] using ih

theorem fsGet_fsSet_ne (fs : List (String × String)) (p c q : String)
    (h : q ≠ p) : fsGet (fsSet fs p c) q = fsGet fs q := by
  induction fs with
  | nil => simp [fsSet, fsGet, List.find?, Ne.symm h]
  | cons e rest ih =>
    obtain ⟨r, d⟩ := e
    by_cases hr : r = p
    · subst hr
      simp [fsSet, fsGet, List.find?, Ne.symm h]
    · simp only [fsSet, if_neg hr]
      by_cases hq : r = q
      · simp [fsGet, List.find?, hq]
      · simpa [fsGet, List.find?, hq] using ih

theorem strIncludes_append_self (a b : String) : strIncludes (a ++ b) b = true := by
  simp only [strIncludes, String.data_append]
  exact decide_eq_true (List.suffix_append a.data b.data).isInfix

theorem backupFile_hit (env : Env Step) (s : Sys) (p c : String)
    (hex : fsGet s.fs p = some c) (hcf : env.copyFail p = false) :
    backupFile env s p =
      (backupPathFor s.clock p,
        { fs := fsSet s.fs (backupPathFor s.clock p) c
          clock := s.clock + 1
          trace := s.trace ++ [Event.backup p (backupPathFor s.clock p) s.clock] }) := by
  simp [backupFile, hex, hcf]

theorem writeFile_cu_eq (env : Env Step) (s : Sys) (t : OpType) (p ct : String)
    (b : Bool) (ht : t ≠ OpType.delete) (hct : ct ≠ "") :
    writeFile env s ⟨t, p, some ct, b⟩ =
      (let s1 := if b then (backupFile env s p).2 else s
       ({ fs := fsSet s1.fs p ct
          clock := s1.clock + 1
          trace := s1.trace ++ [Event.write p s1.clock] }, none)) := by
  cases t with
  | create => simp [writeFile, hct]
  | update => simp [writeFile, hct]
  | delete => exact absurd rfl ht

theorem writeFile_backup_before_write (env : Env Step) (s : Sys) (t : OpType)
    (p ct c : String) (ht : t ≠ OpType.delete) (hct : ct ≠ "")
    (hex : fsGet s.fs p = some c) (hcf : env.copyFail p = false) :
    (writeFile env s ⟨t, p, some ct, true⟩).1.trace =
      s.trace ++ [Event.backup p (backupPathFor s.clock p) s.clock,
                  Event.write p (s.clock + 1)] := by
  rw [writeFile_cu_eq env s t p ct true ht hct]
  simp only [if_pos rfl, backupFile_hit env s p c hex hcf]
  simp [List.append_assoc]

theorem migCount_backupFile (env : Env Step) (s : Sys) (p : String) :
    migCount (backupFile env s p).2 = migCount s := by
  unfold backupFile
  rcases h : fsGet s.fs p with _ | c
  · simp [h]
  · simp only [h]
    split
    · rfl
    · simp [migCount, List.countP_append, isMigInvoke]

theorem migCount_writeFile (env : Env Step) (s : Sys) (op : FileOperation) :
    migCount (writeFile env s op).1 = migCount s := by
  unfold writeFile
  have hb : migCount (if op.backup then (backupFile env s op.filePath).2 else s) =
      migCount s := by
    split
    · exact migCount_backupFile env s op.filePath
    · rfl
  cases op.type with
  | create | update =>
    rcases op.content with _ | c
    · simpa using hb
    · simp only []
      split
      · simpa using hb
      · simpa [migCount, List.countP_append, isMigInvoke] using hb
  | delete =>
    simp only []
    rcases h : fsGet (if op.backup then (backupFile env s op.filePath).2 else s).fs
        op.filePath with _ | c
    · simpa using hb
    · simpa [migCount, List.countP_append, isMigInvoke] using hb

theorem migCount_updateMainSchema (env : Env Step) (s : Sys) (tableName : String) :
    migCount (updateMainSchema env s tableName) = migCount s := by
  unfold updateMainSchema
  rcases h : fsGet s.fs "src/database/schema.ts" with _ | c
  · simp [h]
  · simp only [h]
    split
    · rfl
    · exact migCount_writeFile env s _

theorem migCount_createSchema (env : Env Step) (s : Sys) (schema : SchemaDefinition) :
    migCount (createSchema env s schema).1 = migCount s := by
  unfold createSchema
  rcases h : writeFile env s
      { type := .create, filePath := schemaFilePath schema.tableName,
        content := some (generateSchemaFile schema), backup := true } with ⟨s1, e1⟩
  have h1 : migCount s1 = migCount s := by
    have := migCount_writeFile env s
      { type := .create, filePath := schemaFilePath schema.tableName,
        content := some (generateSchemaFile schema), backup := true }
    rw [h] at this
    exact this
  rcases e1 with _ | err
  · simpa [h, migCount_updateMainSchema] using h1
  · simpa [h] using h1

theorem migCount_createApiRoute (env : Env Step) (gen : Gen) (s : Sys)
    (api : ApiRouteDefinition) :
    migCount (createApiRoute env gen s api).1 = migCount s :=
  migCount_writeFile env s _

theorem migCount_updateComponent (env : Env Step) (gen : Gen) (s : Sys)
    (componentPath endpoint tableName : String) :
    migCount (updateComponent env gen s componentPath endpoint tableName) =
      migCount s := by
  unfold updateComponent
  rcases h : fsGet s.fs componentPath with _ | c
  · rfl
  · exact migCount_writeFile env s _

theorem migCount_createComponent (env : Env Step) (gen : Gen) (s : Sys)
    (componentPath endpoint tableName : String) :
    migCount (createComponent env gen s componentPath endpoint tableName).1 =
      migCount s :=
  migCount_writeFile env s _

theorem migCount_runMigration (env : Env Step) (s : Sys) :
    migCount (runMigration env s).1 = migCount s + 1 := by
  unfold runMigration
  split <;> simp [migCount, List.countP_append, isMigInvoke]

theorem migCount_migrateCommand (env : Env Step) (s : Sys) :
    migCount (migrateCommand env s).1 = migCount s + 1 := by
  simp [migrateCommand, migCount, List.countP_append, isMigInvoke]

theorem fs_migrateCommand (env : Env Step) (s : Sys) :
    (migrateCommand env s).1.fs = s.fs := rfl

theorem migCount_createComponentLoop (env : Env Step) (gen : Gen) (s : Sys)
    (endpoint tableName : String) (paths : List String) :
    migCount (createComponentLoop env gen s endpoint tableName paths).1 =
      migCount s := by
  induction paths generalizing s with
  | nil => rfl
  | cons p rest ih =>
    unfold createComponentLoop
    rcases h : createComponent env gen s p endpoint tableName with ⟨s1, e⟩
    have h1 : migCount s1 = migCount s := by
      have := migCount_createComponent env gen s p endpoint tableName
      rw [h] at this
      exact this
    rcases e with _ | err
    · simp only []
      rcases h2 : createComponentLoop env gen s1 endpoint tableName rest with ⟨s2, r⟩
      have h3 : migCount s2 = migCount s1 := by
        have := ih s1
        rw [h2] at this
        exact this
      rcases r with files | err <;> simp [h3, h1]
    · simpa using h1

theorem migCount_updateComponentLoop (env : Env Step) (gen : Gen) (s : Sys)
    (endpoint tableName : String) (paths : List String) :
    migCount (updateComponentLoop env gen s endpoint tableName paths).1 =
      migCount s := by
  induction paths generalizing s with
  | nil => rfl
  | cons p rest ih =>
    unfold updateComponentLoop
    have h3 := ih (updateComponent env gen s p endpoint tableName)
    rw [migCount_updateComponent env gen s p endpoint tableName] at h3
    rcases h2 : updateComponentLoop env gen
        (updateComponent env gen s p endpoint tableName) endpoint tableName rest
      with ⟨s2, files⟩
    rw [h2] at h3
    simp [h2, h3]

theorem migCount_executeStep (env : Env Step) (gen : Gen) (s : Sys) (step : Step) :
    migCount (executeStep env gen s step).1 =
      migCount s + (if isRunMigrationStep step then 1 else 0) := by
  cases step with
  | create_schema tableName columns relationships =>
    unfold executeStep
    rcases h : createSchema env s (parseSchemaFromStep tableName columns relationships)
      with ⟨s1, e⟩
    have h1 : migCount s1 = migCount s := by
      have := migCount_createSchema env s (parseSchemaFromStep tableName columns relationships)
      rw [h] at this
      exact this
    rcases e with _ | err <;> simp [h, isRunMigrationStep, h1]
  | create_api endpoint tableName methods operations =>
    unfold executeStep
    rcases h : createApiRoute env gen s
        (parseApiFromStep endpoint tableName methods operations) with ⟨s1, e⟩
    have h1 : migCount s1 = migCount s := by
      have := migCount_createApiRoute env gen s
        (parseApiFromStep endpoint tableName methods operations)
      rw [h] at this
      exact this
    rcases e with _ | err <;> simp [h, isRunMigrationStep, h1]
  | update_component componentPaths endpoint tableName =>
    unfold executeStep
    rcases h : updateComponentLoop env gen s endpoint tableName componentPaths
      with ⟨s1, files⟩
    have h1 : migCount s1 = migCount s := by
      have := migCount_updateComponentLoop env gen s endpoint tableName componentPaths
      rw [h] at this
      exact this
    simp [h, isRunMigrationStep, h1]
  | create_component componentPaths endpoint tableName =>
    simpa [executeStep, isRunMigrationStep]
      using migCount_createComponentLoop env gen s endpoint tableName componentPaths
  | run_migration =>
    unfold executeStep
    rcases h : runMigration env s with ⟨s1, e⟩
    have h1 : migCount s1 = migCount s + 1 := by
      have := migCount_runMigration env s
      rw [h] at this
      exact this
    rcases e with _ | err <;> simp [h, isRunMigrationStep, h1]
  | analyze_project => simp [executeStep, isRunMigrationStep]

theorem migCount_runSteps (env : Env Step) (gen : Gen) (s : Sys)
    (steps : List Step) :
    migCount (runSteps env gen s steps).1 = migCount s + countRunMig steps := by
  induction steps generalizing s with
  | nil => simp [runSteps, countRunMig]
  | cons step rest ih =>
    unfold runSteps
    rcases h : executeStep env gen s step with ⟨s1, r⟩
    have h1 : migCount s1 = migCount s + (if isRunMigrationStep step then 1 else 0) := by
      have := migCount_executeStep env gen s step
      rw [h] at this
      exact this
    rcases r with files | msg <;>
    · rcases h2 : runSteps env gen s1 rest with ⟨s2, moreFiles, errors, needs⟩
      have h3 : migCount s2 = migCount s1 + countRunMig rest := by
        have := ih s1
        rw [h2] at this
        exact this
      simp only [h, h2, countRunMig, List.countP_cons] at h3 ⊢
      rw [h3, h1]
      split <;> omega

theorem backupFile_miss (env : Env Step) (s : Sys) (p : String)
    (h : fsGet s.fs p = none) : backupFile env s p = ("", s) := by
  simp [backupFile, h]

theorem createSchema_snd_none (env : Env Step) (s : Sys)
    (schema : SchemaDefinition) : (createSchema env s schema).2 = none := by
  have hw := writeFile_cu_eq env s .create (schemaFilePath schema.tableName)
    (generateSchemaFile schema) true (by simp) (generateSchemaFile_ne_empty schema)
  simp [createSchema, hw]

theorem runSteps_needsMig (env : Env Step) (gen : Gen) (s : Sys)
    (steps : List Step) :
    (runSteps env gen s steps).2.2.2 = plansMigration env steps := by
  induction steps generalizing s with
  | nil => simp [runSteps, plansMigration]
  | cons step rest ih =>
    unfold runSteps
    rcases h : executeStep env gen s step with ⟨s1, r⟩
    have hrest : ∀ s', (runSteps env gen s' rest).2.2.2 = plansMigration env rest :=
      fun s' => ih s'
    cases step with
    | create_schema tableName columns relationships =>
      have hok : r = .ok [schemaFilePath
          (parseSchemaFromStep tableName columns relationships).tableName] := by
        have hc := createSchema_snd_none env s
          (parseSchemaFromStep tableName columns relationships)
        unfold executeStep at h
        rcases h2 : createSchema env s
            (parseSchemaFromStep tableName columns relationships) with ⟨sx, e⟩
        rw [h2] at hc
        simp only at hc
        subst hc
        simp only [h2] at h
        simp at h
        exact h.2.symm
      subst hok
      rcases h2 : runSteps env gen s1 rest with ⟨s2, mf, er, nd⟩
      have h3 := hrest s1
      rw [h2] at h3
      simp [h, h2, h3, isMigKind, plansMigration, List.any_cons]
    | run_migration =>
      cases hm : env.migOk
      · have herr : r = .error "Migration failed: Error: drizzle-kit failed" := by
          unfold executeStep runMigration at h
          rw [hm] at h
          simp at h
          exact h.2.symm
        subst herr
        rcases h2 : runSteps env gen s1 rest with ⟨s2, mf, er, nd⟩
        have h3 := hrest s1
        rw [h2] at h3
        simpa [h, h2, plansMigration, List.any_cons, hm] using h3
      · have hok : r = .ok [] := by
          unfold executeStep runMigration at h
          rw [hm] at h
          simp at h
          exact h.2.symm
        subst hok
        rcases h2 : runSteps env gen s1 rest with ⟨s2, mf, er, nd⟩
        have h3 := hrest s1
        rw [h2] at h3
        simp [h, h2, h3, isMigKind, plansMigration, List.any_cons, hm]
    | create_api endpoint tableName methods operations =>
      rcases r with files | msg <;>
      · rcases h2 : runSteps env gen s1 rest with ⟨s2, mf, er, nd⟩
        have h3 := hrest s1
        rw [h2] at h3
        simpa [h, h2, isMigKind, plansMigration, List.any_cons] using h3
    | update_component componentPaths endpoint tableName =>
      rcases r with files | msg <;>
      · rcases h2 : runSteps env gen s1 rest with ⟨s2, mf, er, nd⟩
        have h3 := hrest s1
        rw [h2] at h3
        simpa [h, h2, isMigKind, plansMigration, List.any_cons] using h3
    | create_component componentPaths endpoint tableName =>
      rcases r with files | msg <;>
      · rcases h2 : runSteps env gen s1 rest with ⟨s2, mf, er, nd⟩
        have h3 := hrest s1
        rw [h2] at h3
        simpa [h, h2, isMigKind, plansMigration, List.any_cons] using h3
    | analyze_project =>
      rcases r with files | msg <;>
      · rcases h2 : runSteps env gen s1 rest with ⟨s2, mf, er, nd⟩
        have h3 := hrest s1
        rw [h2] at h3
        simpa [h, h2, isMigKind, plansMigration, List.any_cons] using h3

theorem updateMainSchema_noop_missing (env : Env Step) (s : Sys) (t : String)
    (h : fsGet s.fs "src/database/schema.ts" = none) :
    updateMainSchema env s t = s := by
  simp [updateMainSchema, h]

theorem updateMainSchema_noop_present (env : Env Step) (s : Sys) (t c : String)
    (h : fsGet s.fs "src/database/schema.ts" = some c)
    (hI : strIncludes c (exportLineFor t) = true) :
    updateMainSchema env s t = s := by
  simp [updateMainSchema, h, hI]

theorem updateMainSchema_appends (env : Env Step) (s : Sys) (t c : String)
    (h : fsGet s.fs "src/database/schema.ts" = some c)
    (hI : ¬ strIncludes c (exportLineFor t) = true) :
    fsGet (updateMainSchema env s t).fs "src/database/schema.ts" =
      some (c ++ "\n" ++ exportLineFor t) := by
  have hnew : (c ++ "\n" ++ exportLineFor t) ≠ "" :=
    str_append_ne_empty_right _ _ (exportLineFor_ne_empty t)
  have hw := writeFile_cu_eq env s .update "src/database/schema.ts"
    (c ++ "\n" ++ exportLineFor t) true (by simp) hnew
  have h1 : updateMainSchema env s t =
      (writeFile env s
        { type := .update, filePath := "src/database/schema.ts",
          content := some (c ++ "\n" ++ exportLineFor t), backup := true }).1 := by
    simp [updateMainSchema, h, hI]
  rw [h1, hw]
  simp [fsGet_fsSet_self]

/-- C8: the Aggregate Index Merger is idempotent: re-applying
`updateMainSchema` with the same table name to the result of a first
application yields the identical world, and the first application preserves
all pre-existing index content (and hence every pre-existing line and
their order) — the content either stays untouched or becomes the old
content with the single canonical export line appended after a newline. -/
theorem updateMainSchema_idempotent (env : Env Step) (s : Sys) (tableName : String) :
    updateMainSchema env (updateMainSchema env s tableName) tableName =
      updateMainSchema env s tableName ∧
    (∀ c, fsGet s.fs "src/database/schema.ts" = some c →
      fsGet (updateMainSchema env s tableName).fs "src/database/schema.ts" = some c ∨
      fsGet (updateMainSchema env s tableName).fs "src/database/schema.ts" =
        some (c ++ "\n" ++ exportLineFor tableName)) := by
  rcases h : fsGet s.fs "src/database/schema.ts" with _ | c
  · have h1 := updateMainSchema_noop_missing env s tableName h
    constructor
    · rw [h1, h1]
    · intro c hc
      exact Option.noConfusion hc
  · by_cases hI : strIncludes c (exportLineFor tableName) = true
    · have h1 := updateMainSchema_noop_present env s tableName c h hI
      constructor
      · rw [h1, h1]
      · intro c' hc'
        injection hc' with hcc
        subst hcc
        left
        rw [h1]
        exact h
    · have h2 := updateMainSchema_appends env s tableName c h hI
      constructor
      · exact updateMainSchema_noop_present env _ tableName
          (c ++ "\n" ++ exportLineFor tableName) h2
          (strIncludes_append_self (c ++ "\n") (exportLineFor tableName))
      · intro c' hc'
        injection hc' with hcc
        subst hcc
        right
        exact h2

/-- Witness for C8 at a concrete index file: the merge is idempotent and
appends exactly the canonical export line. -/
theorem updateMainSchema_idempotent_witness :
    (updateMainSchema (⟨false, .ok [], true, fun _ => false⟩ : Env Step)
        (updateMainSchema ⟨false, .ok [], true, fun _ => false⟩
          ⟨[("src/database/schema.ts", "export * from \"./schemas/a\";")], 5, []⟩
          "orders")
        "orders" =
      updateMainSchema ⟨false, .ok [], true, fun _ => false⟩
        ⟨[("src/database/schema.ts", "export * from \"./schemas/a\";")], 5, []⟩
        "orders") ∧
    (fsGet (updateMainSchema ⟨false, .ok [], true, fun _ => false⟩
        ⟨[("src/database/schema.ts", "export * from \"./schemas/a\";")], 5, []⟩
        "orders").fs "src/database/schema.ts" =
      some ("export * from \"./schemas/a\";" ++ "\n" ++ exportLineFor "orders")) := by
  have h := updateMainSchema_idempotent (⟨false, .ok [], true, fun _ => false⟩ : Env Step)
    ⟨[("src/database/schema.ts", "export * from \"./schemas/a\";")], 5, []⟩ "orders"
  refine ⟨h.1, ?_⟩
  have h2 := h.2 "export * from \"./schemas/a\";" (by decide)
  rcases h2 with h2 | h2
  · exact absurd h2 (by decide)
  · exact h2

/-- C9: for every completed orchestrator run (one that returns a result at
all), the result's `success` flag is true exactly when the accumulated
`errors` list is empty; `migrationCompleted` plays no role in it. -/
theorem success_iff_errors_empty (env : Env Step) (gen : Gen) (s : Sys)
    (req : AgentRequest) (res : AgentResult)
    (h : (execute env gen s req).2 = some res) :
    res.success = true ↔ res.errors = [] := by
  unfold execute at h
  split at h
  · simp at h
    subst h
    simp
  · rcases hp : env.planResult with e | steps <;> rw [hp] at h
    · simp at h
      subst h
      simp
    · simp only [] at h
      rcases hr : runSteps env gen s steps with ⟨s1, files, errors, needs⟩
      rw [hr] at h
      simp only [] at h
      split at h
      · rcases hm : migrateCommand env s1 with ⟨s2, survived⟩
        rw [hm] at h
        simp only [] at h
        split at h
        · simp at h
          subst h
          simp [List.isEmpty_iff]
        · simp at h
      · simp at h
        subst h
        simp [List.isEmpty_iff]

/-- Witness for C9 at a concrete completed run (one failed component
creation, so an error is recorded and success is false). -/
theorem success_iff_errors_empty_witness :
    ((execute (⟨false, .ok [Step.analyze_project], true, fun _ => false⟩ : Env Step)
        ⟨fun c _ _ => c, fun _ _ _ => "X", fun _ => "A"⟩
        ⟨[], 0, []⟩ ⟨"q", true, false⟩).2 =
      some ⟨false, [Step.analyze_project], [],
        ["Step analyze_project failed: Unknown step type: analyze_project"], false⟩) ∧
    (false = true ↔
      (["Step analyze_project failed: Unknown step type: analyze_project"] :
        List String) = []) := by
  constructor
  · decide
  · have := success_iff_errors_empty
      (⟨false, .ok [Step.analyze_project], true, fun _ => false⟩ : Env Step)
      ⟨fun c _ _ => c, fun _ _ _ => "X", fun _ => "A"⟩
      ⟨[], 0, []⟩ ⟨"q", true, false⟩
      ⟨false, [Step.analyze_project], [],
        ["Step analyze_project failed: Unknown step type: analyze_project"], false⟩
      (by decide)
    simp at this
    simp [this]

/-- C10: the Backup Manager is total and absorbing for every write: when the
source file is missing or the copy fails, `backupFile` returns the empty
string and leaves the world unchanged (it never raises), and consequently
the error outcome of any `writeFile` mutation is the same as if its backup
step had not been requested at all — no mutation with backup enabled ever
fails because of its backup. -/
theorem backupFile_total_write_unaffected (env : Env Step) (s : Sys)
    (op : FileOperation) (p : String) :
    ((fsGet s.fs p = none ∨ env.copyFail p = true) → backupFile env s p = ("", s)) ∧
    (writeFile env s op).2 =
      (writeFile env s ⟨op.type, op.filePath, op.content, false⟩).2 := by
  constructor
  · intro h
    rcases h with h | h
    · exact backupFile_miss env s p h
    · rcases hg : fsGet s.fs p with _ | c <;> simp [backupFile, hg, h]
  · cases hb : op.backup
    · have : op = ⟨op.type, op.filePath, op.content, false⟩ := by
        rcases op with ⟨t, fp, ct, b⟩
        simp at hb
        simp [hb]
      rw [← this]
    · unfold writeFile
      simp only [hb, if_pos, if_neg, Bool.false_eq_true, if_false, if_true]
      cases op.type with
      | create | update =>
        rcases op.content with _ | c
        · simp
        · by_cases hc : c = "" <;> simp [hc]
      | delete =>
        rcases hg : fsGet s.fs op.filePath with _ | c
        · rw [backupFile_miss env s op.filePath hg]
          simp [hg]
        · rcases hcf : env.copyFail op.filePath with _ | _
          · rw [backupFile_hit env s op.filePath c hg hcf]
            simp only []
            by_cases hbp : op.filePath = backupPathFor s.clock op.filePath
            · rw [← hbp, fsGet_fsSet_self]
            · rw [fsGet_fsSet_ne s.fs (backupPathFor s.clock op.filePath) c
                op.filePath (fun hx => hbp hx), hg]
          · have : backupFile env s op.filePath = ("", s) := by
              simp [backupFile, hg, hcf]
            rw [this]
            simp [hg]

/-- Witness for C10 at a concrete missing file and a concrete write. -/
theorem backupFile_total_write_unaffected_witness :
    backupFile (⟨false, .ok [], true, fun _ => false⟩ : Env Step)
      ⟨[], 0, []⟩ "missing.ts" = ("", ⟨[], 0, []⟩) ∧
    (writeFile (⟨false, .ok [], true, fun _ => false⟩ : Env Step)
        ⟨[], 0, []⟩ ⟨.create, "a.ts", some "x", true⟩).2 =
      (writeFile (⟨false, .ok [], true, fun _ => false⟩ : Env Step)
        ⟨[], 0, []⟩ ⟨.create, "a.ts", some "x", false⟩).2 := by
  have h := backupFile_total_write_unaffected
    (⟨false, .ok [], true, fun _ => false⟩ : Env Step) ⟨[], 0, []⟩
    ⟨.create, "a.ts", some "x", true⟩ "missing.ts"
  exact ⟨h.1 (Or.inl (by decide)), h.2⟩

/-- C1 (amended): for a run whose analysis and planning succeed and whose
request does not skip migration, the total number of Migration Trigger
invocations is the number of `run_migration` steps (each invokes the
trigger within the step) plus one end-of-run invocation exactly when some
`create_schema` step is present or some `run_migration` step's own
invocation succeeded.  In particular the trigger fires exactly once for
plans that contain a `create_schema` step but no `run_migration` step. -/
theorem migration_trigger_total_invocations (env : Env Step) (gen : Gen)
    (s : Sys) (req : AgentRequest) (steps : List Step)
    (hplan : env.planResult = .ok steps)
    (hana : req.skipAnalysis = true ∨ env.analysisFails = false)
    (hskip : req.skipMigration = false) :
    migCount (execute env gen s req).1 =
      migCount s + countRunMig steps +
        (if plansMigration env steps then 1 else 0) := by
  have hcond : (!req.skipAnalysis && env.analysisFails) = false := by
    rcases hana with h | h <;> simp [h]
  unfold execute
  simp only [hcond, Bool.false_eq_true, if_false, hplan]
  rcases hr : runSteps env gen s steps with ⟨s1, files, errors, needs⟩
  have hneeds : needs = plansMigration env steps := by
    have := runSteps_needsMig env gen s steps
    rw [hr] at this
    exact this
  have hmc : migCount s1 = migCount s + countRunMig steps := by
    have := migCount_runSteps env gen s steps
    rw [hr] at this
    exact this
  cases hpm : plansMigration env steps
  · simp [hr, hneeds, hpm, hskip, hmc]
  · rcases hm : migrateCommand env s1 with ⟨s2, survived⟩
    have h2 : migCount s2 = migCount s1 + 1 := by
      have := migCount_migrateCommand env s1
      rw [hm] at this
      exact this
    cases survived <;> simp [hr, hneeds, hpm, hskip, hm, h2, hmc]

/-- Counterexample to C1 as stated: a plan consisting of one `run_migration`
step, run with `skipMigration = false` and a succeeding migration tool,
invokes the Migration Trigger twice — once inside the step and once at the
end of the run — not exactly once. -/
theorem migration_trigger_invoked_twice_cex :
    migCount (execute
      (⟨false, .ok [Step.run_migration], true, fun _ => false⟩ : Env Step)
      ⟨fun c _ _ => c, fun _ _ _ => "X", fun _ => "A"⟩ ⟨[], 0, []⟩
      ⟨"run pending migrations", true, false⟩).1 = 2 := by
  decide

/-- Witness for C1 (amended) at a concrete one-step `create_schema` plan:
the trigger fires exactly `0 + 0 + 1` times. -/
theorem migration_trigger_total_invocations_witness :
    migCount (execute
      (⟨false, .ok [Step.create_schema "t" [] none], true, fun _ => false⟩ :
        Env Step)
      ⟨fun c _ _ => c, fun _ _ _ => "X", fun _ => "A"⟩ ⟨[], 0, []⟩
      ⟨"add a table", true, false⟩).1 =
      migCount (⟨[], 0, []⟩ : Sys) +
        countRunMig [Step.create_schema "t" [] none] +
        (if plansMigration
            (⟨false, .ok [Step.create_schema "t" [] none], true, fun _ => false⟩ :
              Env Step)
            [Step.create_schema "t" [] none] then 1 else 0) :=
  migration_trigger_total_invocations
    (⟨false, .ok [Step.create_schema "t" [] none], true, fun _ => false⟩ : Env Step)
    ⟨fun c _ _ => c, fun _ _ _ => "X", fun _ => "A"⟩ ⟨[], 0, []⟩
    ⟨"add a table", true, false⟩ [Step.create_schema "t" [] none]
    rfl (Or.inl rfl) rfl

/-- C2 (amended): with `skipMigration = true` the end-of-run Migration
Trigger invocation never happens, but each `run_migration` step still
invokes the trigger within the step: the total invocation count equals the
number of `run_migration` steps in the plan (zero only for plans without
such steps). -/
theorem skipMigration_trigger_only_from_steps (env : Env Step) (gen : Gen)
    (s : Sys) (req : AgentRequest) (steps : List Step)
    (hplan : env.planResult = .ok steps)
    (hana : req.skipAnalysis = true ∨ env.analysisFails = false)
    (hskip : req.skipMigration = true) :
    migCount (execute env gen s req).1 = migCount s + countRunMig steps := by
  have hcond : (!req.skipAnalysis && env.analysisFails) = false := by
    rcases hana with h | h <;> simp [h]
  unfold execute
  simp only [hcond, Bool.false_eq_true, if_false, hplan]
  rcases hr : runSteps env gen s steps with ⟨s1, files, errors, needs⟩
  have hmc : migCount s1 = migCount s + countRunMig steps := by
    have := migCount_runSteps env gen s steps
    rw [hr] at this
    exact this
  simp [hr, hskip, hmc]

/-- Counterexample to C2 as stated: with `skipMigration = true`, a plan
containing a `run_migration` step still invokes the Migration Trigger once
(inside the step), not never. -/
theorem skipMigration_trigger_invoked_cex :
    migCount (execute
      (⟨false, .ok [Step.run_migration], true, fun _ => false⟩ : Env Step)
      ⟨fun c _ _ => c, fun _ _ _ => "X", fun _ => "A"⟩ ⟨[], 0, []⟩
      ⟨"run pending migrations", true, true⟩).1 = 1 := by
  decide

/-- Witness for C2 (amended) at a concrete one-step `run_migration` plan. -/
theorem skipMigration_trigger_only_from_steps_witness :
    migCount (execute
      (⟨false, .ok [Step.run_migration], true, fun _ => false⟩ : Env Step)
      ⟨fun c _ _ => c, fun _ _ _ => "X", fun _ => "A"⟩ ⟨[], 0, []⟩
      ⟨"run pending migrations", true, true⟩).1 =
      migCount (⟨[], 0, []⟩ : Sys) + countRunMig [Step.run_migration] :=
  skipMigration_trigger_only_from_steps
    (⟨false, .ok [Step.run_migration], true, fun _ => false⟩ : Env Step)
    ⟨fun c _ _ => c, fun _ _ _ => "X", fun _ => "A"⟩ ⟨[], 0, []⟩
    ⟨"run pending migrations", true, true⟩ [Step.run_migration]
    rfl (Or.inl rfl) rfl

/-- C3 (amended): the agent-based run command's dry-run mode executes the
plan exactly like a non-dry run: it performs the same filesystem writes and
reports the same touched files and errors; the only difference is that the
end-of-run Migration Trigger invocation is skipped (a `run_migration` step
still invokes the trigger within the step, so the dry-run invocation count
is the number of `run_migration` steps). -/
theorem dry_run_executes_writes (env : Env Step) (gen : Gen) (s : Sys)
    (query : String) (steps : List Step)
    (hplan : env.planResult = .ok steps)
    (hana : env.analysisFails = false) :
    (∃ res, (runCommand env gen s query ⟨true⟩).2 = some res ∧
      ∀ res', (runCommand env gen s query ⟨false⟩).2 = some res' →
        res.files = res'.files ∧ res.errors = res'.errors) ∧
    (runCommand env gen s query ⟨true⟩).1.fs =
      (runCommand env gen s query ⟨false⟩).1.fs ∧
    migCount (runCommand env gen s query ⟨true⟩).1 =
      migCount s + countRunMig steps := by
  rcases hr : runSteps env gen s steps with ⟨s1, files, errors, needs⟩
  have hmc : migCount s1 = migCount s + countRunMig steps := by
    have := migCount_runSteps env gen s steps
    rw [hr] at this
    exact this
  have hdry : runCommand env gen s query ⟨true⟩ =
      (s1, some ⟨errors.isEmpty, steps, files, errors, false⟩) := by
    unfold runCommand execute
    simp [hana, hplan, hr]
  rcases hm : migrateCommand env s1 with ⟨s2, survived⟩
  have hfs2 : s2.fs = s1.fs := by
    have := fs_migrateCommand env s1
    rw [hm] at this
    exact this
  have hwet : runCommand env gen s query ⟨false⟩ =
      (if needs then
        (if survived then
          (s2, some ⟨errors.isEmpty, steps, files, errors, true⟩)
        else (s2, none))
      else (s1, some ⟨errors.isEmpty, steps, files, errors, false⟩)) := by
    unfold runCommand execute
    cases needs <;> simp [hana, hplan, hr, hm]
  refine ⟨⟨⟨errors.isEmpty, steps, files, errors, false⟩, ?_, ?_⟩, ?_, ?_⟩
  · rw [hdry]
  · intro res' h'
    rw [hwet] at h'
    cases needs
    · simp at h'
      subst h'
      exact ⟨rfl, rfl⟩
    · cases survived
      · simp at h'
      · simp at h'
        subst h'
        exact ⟨rfl, rfl⟩
  · rw [hdry, hwet]
    cases needs
    · rfl
    · cases survived <;> simpa using hfs2.symm
  · rw [hdry]
    exact hmc

/-- Counterexample to C3 as stated: in the agent-based CLI, a dry-run with a
one-step `create_schema` plan still performs a filesystem write (the final
filesystem is nonempty although the run started from an empty one), and a
dry-run with a one-step `run_migration` plan still invokes the Migration
Trigger once. -/
theorem dry_run_writes_cex :
    (runCommand
      (⟨false, .ok [Step.create_schema "t" [⟨"name", "text", none, []⟩] none],
        true, fun _ => false⟩ : Env Step)
      ⟨fun c _ _ => c, fun _ _ _ => "X", fun _ => "A"⟩ ⟨[], 0, []⟩
      "add a table" ⟨true⟩).1.fs ≠ [] ∧
    migCount (runCommand
      (⟨false, .ok [Step.run_migration], true, fun _ => false⟩ : Env Step)
      ⟨fun c _ _ => c, fun _ _ _ => "X", fun _ => "A"⟩ ⟨[], 0, []⟩
      "migrate" ⟨true⟩).1 = 1 := by
  constructor
  · decide
  · decide

/-- Witness for C3 (amended) at a concrete one-step plan. -/
theorem dry_run_executes_writes_witness :
    (∃ res, (runCommand
        (⟨false, .ok [Step.create_schema "t" [] none], true, fun _ => false⟩ :
          Env Step)
        ⟨fun c _ _ => c, fun _ _ _ => "X", fun _ => "A"⟩ ⟨[], 0, []⟩
        "add a table" ⟨true⟩).2 = some res ∧
      ∀ res', (runCommand
          (⟨false, .ok [Step.create_schema "t" [] none], true, fun _ => false⟩ :
            Env Step)
          ⟨fun c _ _ => c, fun _ _ _ => "X", fun _ => "A"⟩ ⟨[], 0, []⟩
          "add a table" ⟨false⟩).2 = some res' →
        res.files = res'.files ∧ res.errors = res'.errors) ∧
    (runCommand
        (⟨false, .ok [Step.create_schema "t" [] none], true, fun _ => false⟩ :
          Env Step)
        ⟨fun c _ _ => c, fun _ _ _ => "X", fun _ => "A"⟩ ⟨[], 0, []⟩
        "add a table" ⟨true⟩).1.fs =
      (runCommand
        (⟨false, .ok [Step.create_schema "t" [] none], true, fun _ => false⟩ :
          Env Step)
        ⟨fun c _ _ => c, fun _ _ _ => "X", fun _ => "A"⟩ ⟨[], 0, []⟩
        "add a table" ⟨false⟩).1.fs ∧
    migCount (runCommand
        (⟨false, .ok [Step.create_schema "t" [] none], true, fun _ => false⟩ :
          Env Step)
        ⟨fun c _ _ => c, fun _ _ _ => "X", fun _ => "A"⟩ ⟨[], 0, []⟩
        "add a table" ⟨true⟩).1 =
      migCount (⟨[], 0, []⟩ : Sys) + countRunMig [Step.create_schema "t" [] none] :=
  dry_run_executes_writes
    (⟨false, .ok [Step.create_schema "t" [] none], true, fun _ => false⟩ : Env Step)
    ⟨fun c _ _ => c, fun _ _ _ => "X", fun _ => "A"⟩ ⟨[], 0, []⟩
    "add a table" [Step.create_schema "t" [] none] rfl rfl

/-- C4 (amended): a two-step plan whose first step is a succeeding
`create_api` and whose second step is an `update_component` targeting a
single path that does not exist ends with `touchedFiles` containing BOTH
the API route path and the missing component path, an EMPTY error list, and
`success = true`: the failed component update is demoted to a warning by
`FileWriter.updateComponent` and the path is pushed regardless. -/
theorem api_then_missing_component_succeeds (env : Env Step) (gen : Gen)
    (s : Sys) (req : AgentRequest)
    (endpoint tableName : String) (methods operations : Option (List String))
    (componentPath endpoint2 tableName2 : String)
    (hplan : env.planResult =
      .ok [Step.create_api endpoint tableName methods operations,
           Step.update_component [componentPath] endpoint2 tableName2])
    (hana : req.skipAnalysis = true ∨ env.analysisFails = false)
    (hfresh : fsGet s.fs (apiFilePath endpoint) = none)
    (hne : componentPath ≠ apiFilePath endpoint)
    (hmiss : fsGet s.fs componentPath = none)
    (hgen : gen.apiRoute (parseApiFromStep endpoint tableName methods operations) ≠ "") :
    (execute env gen s req).2 =
      some ⟨true,
        [Step.create_api endpoint tableName methods operations,
         Step.update_component [componentPath] endpoint2 tableName2],
        [apiFilePath endpoint, componentPath], [], false⟩ := by
  have hcond : (!req.skipAnalysis && env.analysisFails) = false := by
    rcases hana with h | h <;> simp [h]
  have hbf := backupFile_miss env s (apiFilePath endpoint) hfresh
  have hw := writeFile_cu_eq env s .create (apiFilePath endpoint)
    (gen.apiRoute (parseApiFromStep endpoint tableName methods operations))
    true (by simp) hgen
  have hstep1 : executeStep env gen s
      (Step.create_api endpoint tableName methods operations) =
      ({ fs := fsSet s.fs (apiFilePath endpoint)
             (gen.apiRoute (parseApiFromStep endpoint tableName methods operations))
         clock := s.clock + 1
         trace := s.trace ++ [Event.write (apiFilePath endpoint) s.clock] },
       .ok [apiFilePath endpoint]) := by
    have hproj : (parseApiFromStep endpoint tableName methods operations).endpoint =
        endpoint := rfl
    simp only [executeStep, createApiRoute, hproj]
    rw [hw]
    simp [hbf]
  have hg2 : fsGet (fsSet s.fs (apiFilePath endpoint)
      (gen.apiRoute (parseApiFromStep endpoint tableName methods operations)))
      componentPath = none := by
    rw [fsGet_fsSet_ne _ _ _ _ hne]
    exact hmiss
  unfold execute
  simp only [hcond, Bool.false_eq_true, if_false, hplan]
  simp only [runSteps, hstep1]
  simp only [executeStep, updateComponentLoop, updateComponent, hg2]
  simp [isMigKind]

/-- Counterexample to C4 as stated (Scenario C): with the first step a
succeeding `create_api` and the second an `update_component` on a
nonexistent path, the run reports BOTH paths as touched, NO errors, and
`success = true` — not "API path only, exactly one error, success false". -/
theorem scenario_c_cex :
    (execute
      (⟨false,
        .ok [Step.create_api "songs" "songs" none none,
             Step.update_component ["src/components/Missing.tsx"] "songs" "songs"],
        true, fun _ => false⟩ : Env Step)
      ⟨fun c _ _ => c, fun _ _ _ => "X", fun _ => "APIROUTE"⟩ ⟨[], 0, []⟩
      ⟨"add songs api and update component", true, false⟩).2 =
      some ⟨true,
        [Step.create_api "songs" "songs" none none,
         Step.update_component ["src/components/Missing.tsx"] "songs" "songs"],
        ["src/app/api/songs/route.ts", "src/components/Missing.tsx"], [], false⟩ := by
  decide

/-- Witness for C4 (amended) at a concrete request and filesystem. -/
theorem api_then_missing_component_succeeds_witness :
    (execute
      (⟨false,
        .ok [Step.create_api "songs" "songs" none none,
             Step.update_component ["src/components/Gone.tsx"] "songs" "songs"],
        true, fun _ => false⟩ : Env Step)
      ⟨fun c _ _ => c, fun _ _ _ => "X", fun _ => "APIROUTE"⟩ ⟨[], 0, []⟩
      ⟨"scenario c", true, false⟩).2 =
      some ⟨true,
        [Step.create_api "songs" "songs" none none,
         Step.update_component ["src/components/Gone.tsx"] "songs" "songs"],
        [apiFilePath "songs", "src/components/Gone.tsx"], [], false⟩ :=
  api_then_missing_component_succeeds
    (⟨false,
      .ok [Step.create_api "songs" "songs" none none,
           Step.update_component ["src/components/Gone.tsx"] "songs" "songs"],
      true, fun _ => false⟩ : Env Step)
    ⟨fun c _ _ => c, fun _ _ _ => "X", fun _ => "APIROUTE"⟩ ⟨[], 0, []⟩
    ⟨"scenario c", true, false⟩ "songs" "songs" none none
    "src/components/Gone.tsx" "songs" "songs"
    rfl (Or.inl rfl) rfl (by decide) rfl (by decide)

theorem trace_extend_backupFile (env : Env Step) (s : Sys) (p : String) :
    ∃ l, (backupFile env s p).2.trace = s.trace ++ l := by
  unfold backupFile
  rcases h : fsGet s.fs p with _ | c
  · refine ⟨[], ?_⟩
    simp [h]
  · simp only [h]
    split
    · exact ⟨[], by simp⟩
    · exact ⟨[Event.backup p (backupPathFor s.clock p) s.clock], rfl⟩

theorem trace_extend_writeFile (env : Env Step) (s : Sys) (op : FileOperation) :
    ∃ l, (writeFile env s op).1.trace = s.trace ++ l := by
  unfold writeFile
  have hs1 : ∃ l1, (if op.backup then (backupFile env s op.filePath).2 else s).trace =
      s.trace ++ l1 := by
    split
    · exact trace_extend_backupFile env s op.filePath
    · exact ⟨[], by simp⟩
  obtain ⟨l1, h1⟩ := hs1
  cases op.type with
  | create | update =>
    rcases op.content with _ | c
    · exact ⟨l1, h1⟩
    · simp only []
      split
      · exact ⟨l1, h1⟩
      · refine ⟨l1 ++ [Event.write op.filePath
          (if op.backup then (backupFile env s op.filePath).2 else s).clock], ?_⟩
        simp [h1]
  | delete =>
    simp only []
    split
    · exact ⟨l1, h1⟩
    · refine ⟨l1 ++ [Event.fileDelete op.filePath
        (if op.backup then (backupFile env s op.filePath).2 else s).clock], ?_⟩
      simp [h1]

theorem trace_extend_updateMainSchema (env : Env Step) (s : Sys) (t : String) :
    ∃ l, (updateMainSchema env s t).trace = s.trace ++ l := by
  unfold updateMainSchema
  rcases h : fsGet s.fs "src/database/schema.ts" with _ | c
  · refine ⟨[], ?_⟩
    simp [h]
  · simp only [h]
    split
    · exact ⟨[], by simp⟩
    · exact trace_extend_writeFile env s _

theorem infix_extend_right {α : Type} (x t l : List α) (h : x <:+: t) :
    x <:+: t ++ l := by
  obtain ⟨u, v, huv⟩ := h
  exact ⟨u, v ++ l, by rw [← huv]; simp⟩

/-- C5 (amended): every backup-enabled mutation on an already-existing path
— schema creation, API route creation, and component update all request
`backup: true` — captures a backup of that path at a strictly earlier
timestamp than its write, the two events appearing adjacently in the trace;
`createComponent` requests no backup (see the counterexample), so the
original claim fails for it. -/
theorem backup_before_write_for_backed_ops (env : Env Step) (gen : Gen)
    (s : Sys) (schema : SchemaDefinition) (api : ApiRouteDefinition)
    (componentPath endpoint tableName : String) :
    (∀ c, fsGet s.fs (schemaFilePath schema.tableName) = some c →
      env.copyFail (schemaFilePath schema.tableName) = false →
      s.clock < s.clock + 1 ∧
      [Event.backup (schemaFilePath schema.tableName)
          (backupPathFor s.clock (schemaFilePath schema.tableName)) s.clock,
       Event.write (schemaFilePath schema.tableName) (s.clock + 1)] <:+:
        (createSchema env s schema).1.trace) ∧
    (∀ c, fsGet s.fs (apiFilePath api.endpoint) = some c →
      env.copyFail (apiFilePath api.endpoint) = false →
      gen.apiRoute api ≠ "" →
      s.clock < s.clock + 1 ∧
      [Event.backup (apiFilePath api.endpoint)
          (backupPathFor s.clock (apiFilePath api.endpoint)) s.clock,
       Event.write (apiFilePath api.endpoint) (s.clock + 1)] <:+:
        (createApiRoute env gen s api).1.trace) ∧
    (∀ c, fsGet s.fs componentPath = some c →
      env.copyFail componentPath = false →
      gen.componentUpdate c endpoint tableName ≠ "" →
      s.clock < s.clock + 1 ∧
      [Event.backup componentPath (backupPathFor s.clock componentPath) s.clock,
       Event.write componentPath (s.clock + 1)] <:+:
        (updateComponent env gen s componentPath endpoint tableName).trace) := by
  refine ⟨?_, ?_, ?_⟩
  · intro c hex hcf
    refine ⟨Nat.lt_succ_self _, ?_⟩
    have htr := writeFile_backup_before_write env s .create
      (schemaFilePath schema.tableName) (generateSchemaFile schema) c
      (by simp) (generateSchemaFile_ne_empty schema) hex hcf
    rcases hwf : writeFile env s
        { type := .create, filePath := schemaFilePath schema.tableName,
          content := some (generateSchemaFile schema), backup := true }
      with ⟨S1, e⟩
    have he : e = none := by
      have hw := writeFile_cu_eq env s .create (schemaFilePath schema.tableName)
        (generateSchemaFile schema) true (by simp) (generateSchemaFile_ne_empty schema)
      rw [hwf] at hw
      simp only [] at hw
      exact congrArg Prod.snd hw
    subst he
    rw [hwf] at htr
    simp only [] at htr
    have hcs : (createSchema env s schema).1 =
        updateMainSchema env S1 schema.tableName := by
      simp [createSchema, hwf]
    rw [hcs]
    obtain ⟨l, hl⟩ := trace_extend_updateMainSchema env S1 schema.tableName
    rw [hl, htr]
    exact infix_extend_right _ _ l ⟨s.trace, [], by simp⟩
  · intro c hex hcf hgen
    refine ⟨Nat.lt_succ_self _, ?_⟩
    have htr := writeFile_backup_before_write env s .create
      (apiFilePath api.endpoint) (gen.apiRoute api) c (by simp) hgen hex hcf
    have hca : (createApiRoute env gen s api).1 =
        (writeFile env s
          { type := .create, filePath := apiFilePath api.endpoint,
            content := some (gen.apiRoute api), backup := true }).1 := rfl
    rw [hca, htr]
    exact ⟨s.trace, [], by simp⟩
  · intro c hex hcf hgen
    refine ⟨Nat.lt_succ_self _, ?_⟩
    have htr := writeFile_backup_before_write env s .update componentPath
      (gen.componentUpdate c endpoint tableName) c (by simp) hgen hex hcf
    have hup : updateComponent env gen s componentPath endpoint tableName =
        (writeFile env s
          { type := .update, filePath := componentPath,
            content := some (gen.componentUpdate c endpoint tableName),
            backup := true }).1 := by
      simp [updateComponent, hex]
    rw [hup, htr]
    exact ⟨s.trace, [], by simp⟩

/-- Counterexample to C5 as stated: `createComponent` on an already-existing
path writes the file with NO preceding backup — the resulting trace is a
single write event to the pre-existing path and contains no backup event. -/
theorem create_component_write_without_backup_cex :
    fsGet ([("src/components/hero.tsx", "old")] : List (String × String))
      "src/components/hero.tsx" = some "old" ∧
    (createComponent (⟨false, .ok [], true, fun _ => false⟩ : Env Step)
      ⟨fun c _ _ => c, fun _ _ _ => "NEW", fun _ => "A"⟩
      ⟨[("src/components/hero.tsx", "old")], 0, []⟩
      "src/components/hero.tsx" "e" "t").1.trace =
      [Event.write "src/components/hero.tsx" 0] := by
  constructor
  · decide
  · decide

/-- Witness for C5 (amended): a concrete component update on an existing
file backs the file up at time 0 and writes it at time 1. -/
theorem backup_before_write_for_backed_ops_witness :
    (0 : Nat) < 0 + 1 ∧
    [Event.backup "src/components/list.tsx"
        (backupPathFor 0 "src/components/list.tsx") 0,
     Event.write "src/components/list.tsx" (0 + 1)] <:+:
      (updateComponent (⟨false, .ok [], true, fun _ => false⟩ : Env Step)
        ⟨fun c _ _ => c ++ "!", fun _ _ _ => "NEW", fun _ => "A"⟩
        ⟨[("src/components/list.tsx", "old")], 0, []⟩
        "src/components/list.tsx" "e" "t").trace :=
  (backup_before_write_for_backed_ops
    (⟨false, .ok [], true, fun _ => false⟩ : Env Step)
    ⟨fun c _ _ => c ++ "!", fun _ _ _ => "NEW", fun _ => "A"⟩
    ⟨[("src/components/list.tsx", "old")], 0, []⟩
    ⟨"t", [], none⟩ ⟨"e", [], "t", []⟩
    "src/components/list.tsx" "e" "t").2.2 "old" (by decide) rfl (by decide)

/-- C6 (amended): `createComponent` performs no duplicate-path check at all:
for every state — whether or not the target already exists — the step
succeeds (no error is thrown, in particular no `DuplicateComponentPath`
error exists anywhere in the code) and the target file ends up overwritten
with the freshly rendered component. -/
theorem create_component_unconditional_overwrite (env : Env Step) (gen : Gen)
    (s : Sys) (componentPath endpoint tableName : String)
    (h : gen.newComponent (getComponentNameFromPath componentPath)
      endpoint tableName ≠ "") :
    (createComponent env gen s componentPath endpoint tableName).2 = none ∧
    fsGet (createComponent env gen s componentPath endpoint tableName).1.fs
        componentPath =
      some (gen.newComponent (getComponentNameFromPath componentPath)
        endpoint tableName) := by
  have hw := writeFile_cu_eq env s .create componentPath
    (gen.newComponent (getComponentNameFromPath componentPath) endpoint tableName)
    false (by simp) h
  have hcc : createComponent env gen s componentPath endpoint tableName =
      writeFile env s
        { type := .create, filePath := componentPath,
          content := some (gen.newComponent (getComponentNameFromPath componentPath)
            endpoint tableName),
          backup := false } := rfl
  rw [hcc, hw]
  simp [fsGet_fsSet_self]

/-- Counterexample to C6 as stated: a `create_component` write to a path
that already exists does NOT fail with a `DuplicateComponentPath` error —
it returns no error and silently replaces the existing content. -/
theorem create_component_no_duplicate_check_cex :
    fsGet ([("src/components/a.tsx", "old")] : List (String × String))
      "src/components/a.tsx" = some "old" ∧
    createComponent (⟨false, .ok [], true, fun _ => false⟩ : Env Step)
      ⟨fun c _ _ => c, fun _ _ _ => "NEWC", fun _ => "A"⟩
      ⟨[("src/components/a.tsx", "old")], 0, []⟩
      "src/components/a.tsx" "e" "t" =
      (⟨[("src/components/a.tsx", "NEWC")], 1,
        [Event.write "src/components/a.tsx" 0]⟩, none) := by
  constructor
  · decide
  · decide

/-- Witness for C6 (amended) at a concrete pre-existing component path. -/
theorem create_component_unconditional_overwrite_witness :
    (createComponent (⟨false, .ok [], true, fun _ => false⟩ : Env Step)
      ⟨fun c _ _ => c, fun _ _ _ => "X", fun _ => "A"⟩
      ⟨[("src/components/b.tsx", "old2")], 0, []⟩
      "src/components/b.tsx" "e" "t").2 = none ∧
    fsGet (createComponent (⟨false, .ok [], true, fun _ => false⟩ : Env Step)
      ⟨fun c _ _ => c, fun _ _ _ => "X", fun _ => "A"⟩
      ⟨[("src/components/b.tsx", "old2")], 0, []⟩
      "src/components/b.tsx" "e" "t").1.fs "src/components/b.tsx" = some "X" :=
  create_component_unconditional_overwrite
    (⟨false, .ok [], true, fun _ => false⟩ : Env Step)
    ⟨fun c _ _ => c, fun _ _ _ => "X", fun _ => "A"⟩
    ⟨[("src/components/b.tsx", "old2")], 0, []⟩
    "src/components/b.tsx" "e" "t" (by decide)

theorem takeWhile_append_stop {α : Type} (p : α → Bool) (xs ys : List α) (y : α)
    (hxs : ∀ x ∈ xs, p x = true) (hy : p y = false) :
    (xs ++ y :: ys).takeWhile p = xs := by
  induction xs with
  | nil => simp [List.takeWhile_cons, hy]
  | cons x xs ih =>
    have hx : p x = true := hxs x (by simp)
    simp only [List.cons_append, List.takeWhile_cons, hx, if_true]
    rw [ih (fun a ha => hxs a (by simp [ha]))]

theorem lineName_fieldLine (f : Field) (h : ¬ ':' ∈ f.name.data) :
    lineName (fieldLine f) = f.name := by
  unfold lineName fieldLine
  simp only [String.data_append, List.append_assoc, List.cons_append,
    List.nil_append]
  rw [List.drop_succ_cons, List.drop_succ_cons, List.drop_zero]
  have hxs : ∀ x ∈ f.name.data, (fun c => decide (c ≠ ':')) x = true := by
    intro x hx
    simp only [decide_eq_true_eq]
    exact fun hc => h (hc ▸ hx)
  rw [takeWhile_append_stop (fun c => decide (c ≠ ':')) f.name.data _ ':' hxs
    (by simp)]

theorem count_map_name_of_any_true (fields : List Field) (c : String)
    (hnd : (fields.map Field.name).Nodup)
    (h : fields.any (fun f => f.name == c) = true) :
    (fields.map Field.name).count c = 1 := by
  obtain ⟨f, hf, hbeq⟩ := List.any_eq_true.mp h
  have hmem : c ∈ fields.map Field.name :=
    List.mem_map.mpr ⟨f, hf, eq_of_beq hbeq⟩
  have h1 : 0 < (fields.map Field.name).count c := List.count_pos_iff.mpr hmem
  have h2 := List.nodup_iff_count_le_one.mp hnd c
  omega

theorem count_map_name_of_any_false (fields : List Field) (c : String)
    (h : fields.any (fun f => f.name == c) = false) :
    (fields.map Field.name).count c = 0 := by
  rw [List.count_eq_zero]
  intro hmem
  obtain ⟨f, hf, hfe⟩ := List.mem_map.mp hmem
  have := List.any_eq_false.mp h f hf
  simp [hfe] at this

theorem countP_map_fieldLine (fields : List Field)
    (hcol : ∀ f ∈ fields, ¬ ':' ∈ f.name.data) (c : String) :
    (fields.map fieldLine).countP (fun l => lineName l == c) =
      (fields.map Field.name).count c := by
  rw [List.countP_map]
  have h2 : fields.countP ((fun l => lineName l == c) ∘ fieldLine) =
      fields.countP (fun f => f.name == c) :=
    List.countP_congr (fun f hf => by
      simp only [Function.comp]
      rw [lineName_fieldLine f (hcol f hf)])
  rw [h2]
  rw [show (fields.map Field.name).count c =
      (fields.map Field.name).countP (fun n => n == c) from rfl]
  rw [List.countP_map]
  rfl

/-- C7 (amended): the CLI executor's schema generator (`generateSchemaCode`
via `schemaTableFields`) injects the identity column only when no supplied
field is named `id` and the timestamp columns only when `createdAt` and
`updatedAt` are absent, so for distinct colon-free field names each of the
three columns is declared exactly once.  The agent's `generateSchemaFile`,
by contrast, injects the three columns unconditionally, so a `create_schema`
step whose columns already include `id` yields a duplicate declaration
(see the counterexample). -/
theorem generateSchemaCode_each_column_once (fields : List Field)
    (hnd : (fields.map Field.name).Nodup)
    (hcol : ∀ f ∈ fields, ¬ ':' ∈ f.name.data) :
    countColumnDefs (schemaTableFields fields) "id" = 1 ∧
    countColumnDefs (schemaTableFields fields) "createdAt" = 1 ∧
    countColumnDefs (schemaTableFields fields) "updatedAt" = 1 := by
  have hidname : lineName "  id: serial(\x27id\x27).primaryKey()," = "id" := by
    decide
  have hcrname :
      lineName "  createdAt: timestamp(\x27created_at\x27).defaultNow().notNull()," =
        "createdAt" := by
    decide
  have hupname :
      lineName "  updatedAt: timestamp(\x27updated_at\x27).defaultNow().notNull()," =
        "updatedAt" := by
    decide
  have hmap := countP_map_fieldLine fields hcol
  unfold countColumnDefs schemaTableFields
  refine ⟨?_, ?_, ?_⟩
  · cases hid : fields.any (fun f => f.name == "id")
    · have hcnt := count_map_name_of_any_false fields "id" hid
      cases hcr : fields.any (fun f => f.name == "createdAt") <;>
        cases hup : fields.any (fun f => f.name == "updatedAt") <;>
        simp [List.countP_append, List.countP_cons, hidname, hcrname, hupname,
          hmap, hcnt]
    · have hcnt := count_map_name_of_any_true fields "id" hnd hid
      cases hcr : fields.any (fun f => f.name == "createdAt") <;>
        cases hup : fields.any (fun f => f.name == "updatedAt") <;>
        simp [List.countP_append, List.countP_cons, hidname, hcrname, hupname,
          hmap, hcnt]
  · cases hcr : fields.any (fun f => f.name == "createdAt")
    · have hcnt := count_map_name_of_any_false fields "createdAt" hcr
      cases hid : fields.any (fun f => f.name == "id") <;>
        cases hup : fields.any (fun f => f.name == "updatedAt") <;>
        simp [List.countP_append, List.countP_cons, hidname, hcrname, hupname,
          hmap, hcnt]
    · have hcnt := count_map_name_of_any_true fields "createdAt" hnd hcr
      cases hid : fields.any (fun f => f.name == "id") <;>
        cases hup : fields.any (fun f => f.name == "updatedAt") <;>
        simp [List.countP_append, List.countP_cons, hidname, hcrname, hupname,
          hmap, hcnt]
  · cases hup : fields.any (fun f => f.name == "updatedAt")
    · have hcnt := count_map_name_of_any_false fields "updatedAt" hup
      cases hid : fields.any (fun f => f.name == "id") <;>
        cases hcr : fields.any (fun f => f.name == "createdAt") <;>
        simp [List.countP_append, List.countP_cons, hidname, hcrname, hupname,
          hmap, hcnt]
    · have hcnt := count_map_name_of_any_true fields "updatedAt" hnd hup
      cases hid : fields.any (fun f => f.name == "id") <;>
        cases hcr : fields.any (fun f => f.name == "createdAt") <;>
        simp [List.countP_append, List.countP_cons, hidname, hcrname, hupname,
          hmap, hcnt]

/-- Counterexample to C7 as stated: the agent-side schema generator
`generateSchemaFile` injects its serial `id` primary-key line
unconditionally, so a `create_schema` step whose supplied columns already
include a column named `id` produces a schema file with TWO `id` column
declarations. -/
theorem generateSchemaFile_duplicate_id_cex :
    countColumnDefs
      (splitStr '\n' (generateSchemaFile
        (parseSchemaFromStep "t" [⟨"id", "integer", none, []⟩] none))) "id" = 2 := by
  decide

/-- Witness for C7 (amended) at a concrete distinct-name field list. -/
theorem generateSchemaCode_each_column_once_witness :
    countColumnDefs (schemaTableFields
      [⟨"name", "string", false, true, false⟩]) "id" = 1 ∧
    countColumnDefs (schemaTableFields
      [⟨"name", "string", false, true, false⟩]) "createdAt" = 1 ∧
    countColumnDefs (schemaTableFields
      [⟨"name", "string", false, true, false⟩]) "updatedAt" = 1 :=
  generateSchemaCode_each_column_once
    [⟨"name", "string", false, true, false⟩] (by decide) (by decide)

end DBAgent
